import Mathlib

/-!
Verification of the p2p-gossip node (src/main.rs, src/utils.rs, src/error.rs)
against its natural-language specification.

The Rust source is shallowly embedded: the peer table (a
`HashMap<SocketAddr, bool>` in the source) becomes an association list, the
bincode wire format of `SocketAddr` becomes explicit byte lists, and each
state-mutating code path (`accept_connection`, the promote step of
`outgoing_connect`, the decoded-peer loop of `outgoing_connect_inner`,
`initial_connect`, `producer_loop`, the post-receiver tail of
`handle_connection`, `retry_connection`) becomes a pure function on that
state.  Network and task-spawning effects are represented by explicit
parameters (dial outcomes, random bytes) and explicit results (log events,
sent bytes, close actions).
-/

namespace P2PGossip

/-- A socket address, mirroring Rust's `std::net::SocketAddr`: either an IPv4
address (four octets) or an IPv6 address (sixteen octets), plus a port.
Octets are bytes (`< 256`) and ports are `u16` (`< 65536`) in the source;
the embedding uses `Nat` fields and carries the bounds where a statement
needs them. -/
inductive SocketAddr where
  | v4 (o0 o1 o2 o3 : Nat) (port : Nat)
  | v6 (o0 o1 o2 o3 o4 o5 o6 o7 o8 o9 o10 o11 o12 o13 o14 o15 : Nat)
       (port : Nat)
deriving DecidableEq, Repr

/-- `IPV4_SERIALIZED_LEN` / `IPV6_SERIALIZED_LEN` from src/utils.rs: the
bincode-serialized length of a socket address, 10 bytes for IPv4 and 22 for
IPv6; the deserializer advances by this amount after each decode. -/
def serializedLen : SocketAddr → Nat
  | SocketAddr.v4 _ _ _ _ _ => 10
  | SocketAddr.v6 _ _ _ _ _ _ _ _ _ _ _ _ _ _ _ _ _ => 22

/-- bincode serialization of a `SocketAddr` (the `bincode::serialize(peer.0)`
call in `accept_connection`): a 4-byte little-endian `u32` enum tag (0 for
V4, 1 for V6), the IP octets in order, then the port as a little-endian
`u16`. -/
def serializeSocketAddr : SocketAddr → List Nat
  | SocketAddr.v4 o0 o1 o2 o3 port =>
      [0, 0, 0, 0, o0, o1, o2, o3, port % 256, port / 256]
  | SocketAddr.v6 o0 o1 o2 o3 o4 o5 o6 o7 o8 o9 o10 o11 o12 o13 o14 o15 port =>
      [1, 0, 0, 0, o0, o1, o2, o3, o4, o5, o6, o7, o8, o9, o10, o11, o12,
       o13, o14, o15, port % 256, port / 256]

/-- One `bincode::deserialize::<SocketAddr>` call on a byte-slice prefix
(trailing bytes are permitted, as with bincode's default options): reads the
4-byte variant tag, then the family's octets and the port.  Returns `none`
on a truncated buffer or an invalid variant tag — the error cases of
`bincode::deserialize` that `SocketAddrDeserializer::next` turns into
iterator exhaustion via `.ok()?`. -/
def parseSocketAddr : List Nat → Option SocketAddr
  | 0 :: 0 :: 0 :: 0 :: o0 :: o1 :: o2 :: o3 :: p0 :: p1 :: _ =>
      some (SocketAddr.v4 o0 o1 o2 o3 (p0 + 256 * p1))
  | 1 :: 0 :: 0 :: 0 :: o0 :: o1 :: o2 :: o3 :: o4 :: o5 :: o6 :: o7 :: o8 ::
      o9 :: o10 :: o11 :: o12 :: o13 :: o14 :: o15 :: p0 :: p1 :: _ =>
      some (SocketAddr.v6 o0 o1 o2 o3 o4 o5 o6 o7 o8 o9 o10 o11 o12 o13 o14
        o15 (p0 + 256 * p1))
  | _ => none

/-- `deserialize_addresses` / `SocketAddrDeserializer` from src/utils.rs,
collected into a list: repeatedly bincode-decode a `SocketAddr` from the
front of the buffer, advance by the family's fixed record length, and stop
as soon as a decode fails (`.ok()?`). -/
def deserializeAddresses (data : List Nat) : List SocketAddr :=
  match h : parseSocketAddr data with
  | none => []
  | some peer => peer :: deserializeAddresses (data.drop (serializedLen peer))
termination_by data.length
decreasing_by
  have hlen : 1 ≤ data.length := by
    cases data with
    | nil => simp [parseSocketAddr] at h
    | cons b rest => simp
  have hpos : 0 < serializedLen peer := by
    cases peer <;> simp [serializedLen]
  simp only [List.length_drop]
  omega

/-! ## The peer table

`HashMap<SocketAddr, bool>` in the source, embedded as an association list
whose iteration order stands in for the map's unspecified iteration order.
`tableInsert` mirrors `HashMap::insert` (replace in place or append);
`HashMap::insert`'s returned old value is recovered as `tableGet` before the
insert. -/

/-- The shared peer table: address ↦ `finalized` flag. -/
def Table : Type := List (SocketAddr × Bool)

instance : DecidableEq Table := by
  unfold Table
  infer_instance

instance : Repr Table := by
  unfold Table
  infer_instance

/-- `HashMap::get` — the `finalized` flag currently recorded for `k`. -/
def tableGet : Table → SocketAddr → Option Bool
  | [], _ => none
  | p :: rest, k => if p.1 = k then some p.2 else tableGet rest k

/-- `HashMap::contains_key`. -/
def tableContains (t : Table) (k : SocketAddr) : Bool :=
  (tableGet t k).isSome

/-- `HashMap::insert`: overwrite the existing entry for `k` or append a new
one. -/
def tableInsert : Table → SocketAddr → Bool → Table
  | [], k, v => [(k, v)]
  | p :: rest, k, v =>
      if p.1 = k then (k, v) :: rest else p :: tableInsert rest k v

/-! ## Close reasons and application errors

`quinn::ConnectionError` (the close reason observed by a connection) and
`AppError` from src/error.rs.  Payloads that the program never inspects
(transport error details, close reason byte strings) are carried as opaque
strings. -/

/-- `quinn::ConnectionError`. -/
inductive ConnectionError where
  | versionMismatch
  | transportError (details : String)
  | connectionClosed
  | applicationClosed (errorCode : Nat) (reason : String)
  | reset
  | timedOut
  | locallyClosed
deriving DecidableEq, Repr

/-- `AppError` from src/error.rs: the tagged sum of every error the program
propagates. -/
inductive AppError where
  | connectionError (e : ConnectionError)
  | connectError (details : String)
  | readToEndError (details : String)
  | writeError (details : String)
  | io (details : String)
  | bincode (details : String)
deriving DecidableEq, Repr

/-- `is_already_open_or_locally_closed_reason` from src/error.rs: true for
`ApplicationClosed` with code 1 and for `LocallyClosed` — the two benign
close reasons. -/
def isAlreadyOpenOrLocallyClosedReason (e : ConnectionError) : Bool :=
  (match e with
   | ConnectionError.applicationClosed code _ => decide (code = 1)
   | _ => false) ||
  decide (e = ConnectionError.locallyClosed)

/-- `is_already_open_or_locally_closed_error` from src/error.rs. -/
def isAlreadyOpenOrLocallyClosedError : AppError → Bool
  | AppError.connectionError e => isAlreadyOpenOrLocallyClosedReason e
  | _ => false

/-! ## `Display` rendering of socket addresses

The log lines quote addresses with Rust's `Display` impls: `a.b.c.d:port`
for IPv4 and `[segments]:port` for IPv6, the segments lowercase-hex with the
longest run of zero segments (of length at least 2, leftmost on ties)
compressed to `::` and the IPv4-mapped form special-cased, as in the
standard library. -/

/-- An IPv6 segment in lowercase hex, without padding (`0` for zero). -/
def hexStr (n : Nat) : String :=
  String.mk (Nat.toDigits 16 n)

/-- `Display` for `Ipv4Addr`: dotted decimal octets. -/
def displayIpv4 (o0 o1 o2 o3 : Nat) : String :=
  toString o0 ++ "." ++ toString o1 ++ "." ++ toString o2 ++ "." ++ toString o3

/-- The longest (leftmost on ties) run of zero segments, as (start, length):
the `find_zero_span` loop of the standard library's `Ipv6Addr` formatting. -/
def findZeroSpan (segs : List Nat) : Nat × Nat :=
  (segs.enum.foldl
    (fun (acc : (Nat × Nat) × (Nat × Nat)) iseg =>
      let longest := acc.1
      let current := acc.2
      if iseg.2 = 0 then
        let cs := if current.2 = 0 then iseg.1 else current.1
        let cl := current.2 + 1
        if cl > longest.2 then ((cs, cl), (cs, cl)) else (longest, (cs, cl))
      else (longest, (0, 0)))
    ((0, 0), (0, 0))).1

/-- Hex segments joined by `:`. -/
def fmtHextets (segs : List Nat) : String :=
  String.intercalate ":" (segs.map hexStr)

/-- `Display` for `Ipv6Addr`: IPv4-mapped special case, else zero-run
compression. -/
def displayIpv6 (o0 o1 o2 o3 o4 o5 o6 o7 o8 o9 o10 o11 o12 o13 o14 o15 : Nat) :
    String :=
  let segs := [o0 * 256 + o1, o2 * 256 + o3, o4 * 256 + o5, o6 * 256 + o7,
               o8 * 256 + o9, o10 * 256 + o11, o12 * 256 + o13,
               o14 * 256 + o15]
  if segs.take 6 = [0, 0, 0, 0, 0, 65535] then
    "::ffff:" ++ displayIpv4 o12 o13 o14 o15
  else
    let span := findZeroSpan segs
    if span.2 > 1 then
      fmtHextets (segs.take span.1) ++ "::" ++
        fmtHextets (segs.drop (span.1 + span.2))
    else fmtHextets segs

/-- `Display` for `SocketAddr`. -/
def displaySocketAddr : SocketAddr → String
  | SocketAddr.v4 o0 o1 o2 o3 port =>
      displayIpv4 o0 o1 o2 o3 ++ ":" ++ toString port
  | SocketAddr.v6 o0 o1 o2 o3 o4 o5 o6 o7 o8 o9 o10 o11 o12 o13 o14 o15 port =>
      "[" ++
        displayIpv6 o0 o1 o2 o3 o4 o5 o6 o7 o8 o9 o10 o11 o12 o13 o14 o15 ++
        "]:" ++ toString port

/-! ## `format_peers` (src/utils.rs) -/

/-- A peer address as it appears inside a log line's list: double-quoted. -/
def quoteAddr (a : SocketAddr) : String :=
  "\"" ++ displaySocketAddr a ++ "\""

/-- `format_peers` from src/utils.rs: iterate the table, keep only entries
with `finalized = true`, and write each address double-quoted with `", "`
between consecutive items (the separator is pushed for every index except
the first). -/
def formatPeers (peers : Table) : String :=
  ((peers.filter (fun p => p.2)).enum).foldl
    (fun s ip => (if ip.1 ≠ 0 then s ++ ", " else s) ++ quoteAddr ip.2.1) ""

/-- The finalized subset of the table, in table order. -/
def finalizedAddrs (peers : Table) : List SocketAddr :=
  (peers.filter (fun p => p.2)).map (fun p => p.1)

/-- Modelled from the spec: the double-quoted, comma-space-separated list of
a set of addresses (spec section 4.6 step 2), as a plain recursive
definition to compare `format_peers` against. -/
def quotedAddrList : List SocketAddr → String
  | [] => ""
  | [a] => quoteAddr a
  | a :: rest => quoteAddr a ++ ", " ++ quotedAddrList rest

/-- The tail of the comma-separated list: every element preceded by `", "`. -/
def quotedAddrTail : List SocketAddr → String
  | [] => ""
  | a :: rest => ", " ++ quoteAddr a ++ quotedAddrTail rest

/-! ## Rust `Ord` on socket addresses

`outgoing_connect` compares `local_addr < remote_addr` with
`std::net::SocketAddr`'s derived order: every V4 address sorts before every
V6 address; within a family, the IP compares first (octets in order, i.e.
the numeric `u32`/`u128` value) and the port breaks ties. -/

/-- Strict lexicographic order on equal-length byte lists. -/
def bytesLexLt : List Nat → List Nat → Bool
  | x :: xs, y :: ys => decide (x < y) || (decide (x = y) && bytesLexLt xs ys)
  | _, _ => false

/-- `SocketAddr::lt` as derived in Rust's standard library. -/
def socketAddrLt : SocketAddr → SocketAddr → Bool
  | SocketAddr.v4 a0 a1 a2 a3 ap, SocketAddr.v4 b0 b1 b2 b3 bp =>
      bytesLexLt [a0, a1, a2, a3] [b0, b1, b2, b3] ||
        (decide ([a0, a1, a2, a3] = [b0, b1, b2, b3]) && decide (ap < bp))
  | SocketAddr.v4 _ _ _ _ _, SocketAddr.v6 _ _ _ _ _ _ _ _ _ _ _ _ _ _ _ _ _ =>
      true
  | SocketAddr.v6 _ _ _ _ _ _ _ _ _ _ _ _ _ _ _ _ _, SocketAddr.v4 _ _ _ _ _ =>
      false
  | SocketAddr.v6 a0 a1 a2 a3 a4 a5 a6 a7 a8 a9 a10 a11 a12 a13 a14 a15 ap,
    SocketAddr.v6 b0 b1 b2 b3 b4 b5 b6 b7 b8 b9 b10 b11 b12 b13 b14 b15 bp =>
      bytesLexLt [a0, a1, a2, a3, a4, a5, a6, a7, a8, a9, a10, a11, a12, a13,
          a14, a15]
        [b0, b1, b2, b3, b4, b5, b6, b7, b8, b9, b10, b11, b12, b13, b14,
          b15] ||
        (decide ([a0, a1, a2, a3, a4, a5, a6, a7, a8, a9, a10, a11, a12, a13,
            a14, a15] =
          [b0, b1, b2, b3, b4, b5, b6, b7, b8, b9, b10, b11, b12, b13, b14,
            b15]) && decide (ap < bp))

/-! ## The accept path (`accept_connection`, src/main.rs lines 158-178) -/

/-- What `accept_connection` did with a handshake-complete inbound
connection: closed it immediately (application code and reason recorded), or
accepted it after writing `sentBytes` on the post-handshake unidirectional
stream. -/
inductive AcceptOutcome where
  | closed (code : Nat) (reason : String)
  | accepted (sentBytes : List Nat)
deriving DecidableEq, Repr

/-- `accept_connection`: under the table lock, insert the remote address
with `finalized = true`; if the previous value was already `true`, close
with code 1 / "already connected" and hand back no connection; otherwise
open the unidirectional stream and write the bincode record of every entry
of the table (the insert happens first, so the iteration sees the updated
table), then finish the stream. -/
def acceptConnection (peers : Table) (remoteAddr : SocketAddr) :
    AcceptOutcome × Table :=
  let old := tableGet peers remoteAddr
  let peers1 := tableInsert peers remoteAddr true
  if old = some true then (AcceptOutcome.closed 1 "already connected", peers1)
  else
    (AcceptOutcome.accepted
      (peers1.foldl (fun acc p => acc ++ serializeSocketAddr p.1) []),
     peers1)

/-! ## The promote step of `outgoing_connect` (src/main.rs lines 209-245) -/

/-- The success arm of `outgoing_connect`: insert the remote with
`finalized = true`; when the entry was already finalized and the local
address sorts strictly below the remote one, close the outbound connection
with application code 1 / "already connected" (recorded in the first
component), otherwise keep it. -/
def outgoingConnectPromote (localAddr remoteAddr : SocketAddr)
    (peers : Table) : Option (Nat × String) × Table :=
  let old := tableGet peers remoteAddr
  let peers1 := tableInsert peers remoteAddr true
  if old = some true ∧ socketAddrLt localAddr remoteAddr = true then
    (some (1, "already connected"), peers1)
  else (none, peers1)

/-! ## The decoded-peer loop of `outgoing_connect_inner`
(src/main.rs lines 262-273) -/

/-- The insertion loop over the addresses decoded from the remote's peer
list: each address distinct from the local one and not yet known is inserted
with `finalized = false` (and a dial is spawned for it, not modelled here);
all others are skipped. -/
def integrateDecoded (localAddr : SocketAddr) (peers : Table)
    (decoded : List SocketAddr) : Table :=
  decoded.foldl
    (fun t peer =>
      if peer ≠ localAddr ∧ tableContains t peer = false then
        tableInsert t peer false
      else t)
    peers

/-! ## `initial_connect` (src/main.rs lines 181-206) -/

/-- The bootstrap seeding of `initial_connect`:
`HashMap::from([(first_peer, false)])`.  The local address is not consulted. -/
def initialConnectSeed (firstPeer : SocketAddr) : Table :=
  [(firstPeer, false)]

/-- The tail of `initial_connect`, entered once the waiter fires: log
`Connected to the peers at [...]` from the current table, then retain only
the finalized entries. -/
def initialConnectFinish (peers : Table) : String × Table :=
  ("Connected to the peers at [" ++ formatPeers peers ++ "]",
   peers.filter (fun p => p.2))

/-- `initial_connect` end to end, with the recursive dial tree abstracted as
its outcome: on any error of the single awaited dial the result is discarded
(`let _ = ...`) and the table still holds just the seeded bootstrap entry;
on success the table is whatever the finished task tree left.  Either way
the function logs and compacts; it has no error result. -/
def initialConnect (firstPeer : SocketAddr)
    (dialOutcome : Except AppError Table) : String × Table :=
  initialConnectFinish
    (match dialOutcome with
     | Except.error _ => initialConnectSeed firstPeer
     | Except.ok t => t)

/-! ## `handle_connection` after the receiver loop returns
(src/main.rs lines 353-391) -/

/-- A log line emitted by the connection handler, by kind. -/
inductive LogEvent where
  | closedConnection (remote : SocketAddr) (reason : ConnectionError)
  | reconnected (remote : SocketAddr)
deriving DecidableEq, Repr

/-- The outcome of `handle_connection`'s tail: the log lines it emitted
directly, the table it left, and whether it entered the backoff reconnect
loop (which is the only place a further dial — and hence a
"Failed to connect" line — could come from). -/
structure PostResult where
  logs : List LogEvent
  table : Table
  retries : Bool
deriving DecidableEq, Repr

/-- The tail of `handle_connection` once `handle_connection_inner` has
returned `disconnectReason`: log "Closed connection to ..." unless the
reason is benign; insert the remote with `finalized = false`; then on
`TimedOut` enter the reconnect loop, on a benign reason insert the remote
back with `finalized = true`, and otherwise stop. -/
def handleConnectionPost (disconnectReason : ConnectionError)
    (remoteAddr : SocketAddr) (peers : Table) : PostResult :=
  let logs :=
    if isAlreadyOpenOrLocallyClosedReason disconnectReason then []
    else [LogEvent.closedConnection remoteAddr disconnectReason]
  let peers1 := tableInsert peers remoteAddr false
  match disconnectReason with
  | ConnectionError.timedOut => ⟨logs, peers1, true⟩
  | e =>
      if isAlreadyOpenOrLocallyClosedReason e then
        ⟨logs, tableInsert peers1 remoteAddr true, false⟩
      else ⟨logs, peers1, false⟩

/-- One attempt of the backoff loop in `handle_connection`
(`retry_connection`): if the entry is already finalized, return
`Ok(false)` without dialing; otherwise dial (outcome supplied as
`dialOutcome`) and map success to `Ok(true)` and failure to a transient
backoff error.  The first component records whether a dial was issued. -/
def retryConnection (peers : Table) (remoteAddr : SocketAddr)
    (dialOutcome : Except AppError Unit) : Bool × Except AppError Bool :=
  if tableGet peers remoteAddr = some true then (false, Except.ok false)
  else (true, dialOutcome.map (fun _ => true))

/-! ## The gossip tick (`producer_loop`, src/main.rs lines 287-318) -/

/-- The bs58 alphabet (Bitcoin). -/
def base58Alphabet : List Char :=
  "123456789ABCDEFGHJKLMNPQRSTUVWXYZabcdefghijkmnopqrstuvwxyz".toList

/-- Base-58 digits of `n`, most significant first, empty for 0. -/
def base58Digits (n : Nat) : List Char :=
  if n = 0 then []
  else base58Digits (n / 58) ++ [base58Alphabet.getD (n % 58) (Char.ofNat 49)]
decreasing_by
  exact Nat.div_lt_self (Nat.pos_of_ne_zero (by assumption)) (by omega)

/-- Leading zero bytes of the input, each rendered as `1` by bs58. -/
def countLeadingZeroBytes : List Nat → Nat
  | [] => 0
  | b :: rest => if b = 0 then countLeadingZeroBytes rest + 1 else 0

/-- `bs58::encode(..).into_string()`: one `1` per leading zero byte, then
the base-58 digits of the input read as a big-endian number. -/
def bs58Encode (bytes : List Nat) : String :=
  String.mk
    (List.replicate (countLeadingZeroBytes bytes) (Char.ofNat 49) ++
      base58Digits (bytes.foldl (fun acc b => acc * 256 + b) 0))

/-- One iteration of `producer_loop` past its sleep, with the 32 random
bytes drawn by `generate_random_message` passed in: format the finalized
peers under the lock; if the formatted string is empty do nothing, else
Base58-encode the random bytes, log the "Sending message" line, and publish
the message once on the broadcast bus.  Result: (log lines, published
messages). -/
def producerTick (peers : Table) (randomBytes : List Nat) :
    List String × List String :=
  let formattedPeers := formatPeers peers
  if formattedPeers = "" then ([], [])
  else
    let msg := bs58Encode randomBytes
    (["Sending message [" ++ msg ++ "] to [" ++ formattedPeers ++ "]"],
     [msg])

/-! ## Concrete addresses used by the counterexample instances -/

/-- A concrete IPv4 socket address, 10.0.0.1:8080. -/
def addrA : SocketAddr := SocketAddr.v4 10 0 0 1 8080

/-- A concrete IPv4 socket address, 10.0.0.2:8081. -/
def addrB : SocketAddr := SocketAddr.v4 10 0 0 2 8081

/-!
## Theorems

Helper lemmas first, then the theorems settling the claims, with their
witnesses and counterexample instances.
-/

/-- A successful decode saw at least the whole record: 10 bytes for a V4
result, 22 for a V6 result (`serializedLen`). -/
theorem parseSocketAddr_some_length {data : List Nat} {a : SocketAddr}
    (h : parseSocketAddr data = some a) : serializedLen a ≤ data.length := by
  unfold parseSocketAddr at h
  split at h
  · cases h
    simp [serializedLen]
  · cases h
    simp [serializedLen]
  · cases h

example : deserializeAddresses [0, 0, 0, 0, 127, 0, 0, 1, 144, 31] =
    [SocketAddr.v4 127 0 0 1 8080] := by
  simp [deserializeAddresses, parseSocketAddr, serializedLen]

example : deserializeAddresses [1, 0, 0] = [] := by
  simp [deserializeAddresses, parseSocketAddr]

/-- Decoding a buffer that starts with one full serialized record yields that
record's address first. -/
theorem parseSocketAddr_serialize_append (a : SocketAddr) (rest : List Nat) :
    parseSocketAddr (serializeSocketAddr a ++ rest) = some a := by
  cases a <;> simp [serializeSocketAddr, parseSocketAddr, Nat.mod_add_div]

/-- The serialized record has exactly the length the deserializer skips. -/
theorem length_serializeSocketAddr (a : SocketAddr) :
    (serializeSocketAddr a).length = serializedLen a := by
  cases a <;> rfl

/-- C5 support: one decode step on `serialize a ++ rest` produces `a` and
leaves exactly `rest`. -/
theorem deserializeAddresses_cons (a : SocketAddr) (rest : List Nat) :
    deserializeAddresses (serializeSocketAddr a ++ rest) =
      a :: deserializeAddresses rest := by
  rw [deserializeAddresses]
  split
  next h =>
    rw [parseSocketAddr_serialize_append] at h
    cases h
  next peer h =>
    rw [parseSocketAddr_serialize_append] at h
    cases h
    rw [← length_serializeSocketAddr, List.drop_left]

/-- Decoding halts immediately when the head record fails to decode. -/
theorem deserializeAddresses_eq_nil {data : List Nat}
    (h : parseSocketAddr data = none) : deserializeAddresses data = [] := by
  rw [deserializeAddresses]
  split
  next => rfl
  next peer h2 => rw [h] at h2; cases h2

/-- Every record needs at least 10 bytes, so shorter buffers do not decode. -/
theorem parseSocketAddr_eq_none_of_short {data : List Nat}
    (h : data.length < 10) : parseSocketAddr data = none := by
  match h2 : parseSocketAddr data with
  | none => rfl
  | some a =>
    have hlen := parseSocketAddr_some_length h2
    have : 10 ≤ serializedLen a := by cases a <;> simp [serializedLen]
    omega

/-- A buffer carrying the V6 variant tag decodes, if at all, to a V6 address
(record length 22). -/
theorem parseSocketAddr_v6tag {rest : List Nat} {a : SocketAddr}
    (h : parseSocketAddr (1 :: 0 :: 0 :: 0 :: rest) = some a) :
    serializedLen a = 22 := by
  unfold parseSocketAddr at h
  split at h
  next heq => cases heq
  next heq => cases h; simp [serializedLen]
  next => cases h

/--
C5: for every finite list of socket addresses, concatenating their bincode
fixed-width encodings (10 bytes per IPv4, 22 per IPv6) and running
`deserialize_addresses` on the result yields exactly the original list,
element for element in order.
-/
theorem deserialize_serialized_addresses_roundtrip (addrs : List SocketAddr) :
    deserializeAddresses (addrs.map serializeSocketAddr).flatten = addrs := by
  induction addrs with
  | nil => exact deserializeAddresses_eq_nil rfl
  | cons a rest ih =>
    simp only [List.map_cons, List.flatten_cons, deserializeAddresses_cons, ih]

/--
C6, amended: for every input byte string the decoder halts — yields no
further addresses — when fewer than 10 bytes remain, and it also halts
silently (rather than failing with any error) on a record whose
family-implied size exceeds the remaining buffer, e.g. a V6-tagged record
with fewer than 22 bytes left.  The code has no `MalformedAddressRecord`
error: `SocketAddrDeserializer::next` converts every decode failure into
iterator exhaustion with `.ok()?`, and no such variant exists in `AppError`.
-/
theorem decoder_halts_silently (data : List Nat) :
    (data.length < 10 → deserializeAddresses data = []) ∧
    (∀ rest : List Nat, data = 1 :: 0 :: 0 :: 0 :: rest → data.length < 22 →
      deserializeAddresses data = []) := by
  constructor
  · intro h
    exact deserializeAddresses_eq_nil (parseSocketAddr_eq_none_of_short h)
  · rintro rest rfl h
    refine deserializeAddresses_eq_nil ?_
    match h2 : parseSocketAddr (1 :: 0 :: 0 :: 0 :: rest) with
    | none => rfl
    | some a =>
      have h22 := parseSocketAddr_v6tag h2
      have hlen := parseSocketAddr_some_length h2
      omega

/-- Witness for `decoder_halts_silently`: a 5-byte buffer (shorter than one
record) and a 12-byte V6-tagged buffer (valid tag, truncated record) both
make the decoder yield no addresses and no error. -/
theorem decoder_halts_silently_witness :
    deserializeAddresses [1, 0, 0, 0, 5] = [] ∧
    deserializeAddresses [1, 0, 0, 0, 0, 0, 0, 0, 0, 0, 0, 0] = [] :=
  ⟨(decoder_halts_silently [1, 0, 0, 0, 5]).1 (by decide),
   (decoder_halts_silently [1, 0, 0, 0, 0, 0, 0, 0, 0, 0, 0, 0]).2
     [0, 0, 0, 0, 0, 0, 0, 0] rfl (by decide)⟩

/--
C6, counterexample: a 20-byte buffer whose first four bytes are the V6
variant tag, so the family-implied record size (22) exceeds the remaining
buffer (20, which is not below the 10-byte halt threshold).  The claim says
the decoder fails here with a `MalformedAddressRecord` error; the code has
no error path at all — `SocketAddrDeserializer::next` returns `None` via
`.ok()?`, no `MalformedAddressRecord` variant exists in `AppError`, and the
decoder just yields the empty address list.
-/
theorem decoder_no_malformed_error_counterexample :
    deserializeAddresses
      [1, 0, 0, 0, 0, 0, 0, 0, 0, 0, 0, 0, 0, 0, 0, 0, 0, 0, 0, 0] = [] :=
  deserializeAddresses_eq_nil rfl

theorem tableGet_insert_self (t : Table) (k : SocketAddr) (v : Bool) :
    tableGet (tableInsert t k v) k = some v := by
  induction t with
  | nil => simp [tableInsert, tableGet]
  | cons p rest ih =>
    by_cases h : p.1 = k <;> simp [tableInsert, tableGet, h, ih]

theorem tableGet_insert_ne (t : Table) {k j : SocketAddr} (v : Bool)
    (h : j ≠ k) : tableGet (tableInsert t k v) j = tableGet t j := by
  have hkj : ¬(k = j) := fun e => h e.symm
  induction t with
  | nil => simp [tableInsert, tableGet, hkj]
  | cons p rest ih =>
    by_cases hp : p.1 = k
    · subst hp
      simp [tableInsert, tableGet, hkj]
    · simp only [tableInsert, if_neg hp]
      by_cases hj : p.1 = j <;> simp [tableGet, hj, ih]

example : displaySocketAddr (SocketAddr.v4 127 0 0 1 8080) =
    "127.0.0.1:8080" := by decide

example : displaySocketAddr
    (SocketAddr.v6 0 0 0 0 0 0 0 0 0 0 0 0 0 0 0 1 443) = "[::1]:443" := by
  decide

example : displaySocketAddr
    (SocketAddr.v6 32 1 13 184 0 0 0 0 0 1 0 0 0 0 0 32 80) =
    "[2001:db8::1:0:0:20]:80" := by decide

theorem quotedAddrList_eq_tail (a : SocketAddr) (rest : List SocketAddr) :
    quotedAddrList (a :: rest) = quoteAddr a ++ quotedAddrTail rest := by
  induction rest generalizing a with
  | nil => simp [quotedAddrList, quotedAddrTail, String.append_empty]
  | cons b t ih =>
    simp only [quotedAddrList, quotedAddrTail, ih, String.append_assoc]

theorem formatPeers_fold_tail (l : List (SocketAddr × Bool)) :
    ∀ (n : Nat) (s : String),
      (List.enumFrom (n + 1) l).foldl
        (fun s ip => (if ip.1 ≠ 0 then s ++ ", " else s) ++ quoteAddr ip.2.1)
        s = s ++ quotedAddrTail (l.map (fun p => p.1)) := by
  induction l with
  | nil => intro n s; simp [quotedAddrTail, String.append_empty]
  | cons a t ih =>
    intro n s
    simp only [List.map_cons, List.enumFrom, List.foldl_cons]
    rw [if_pos (by omega)]
    rw [ih (n + 1)]
    simp [quotedAddrTail, String.append_assoc]

/-- `format_peers` renders exactly the finalized subset, comma-space
separated and double-quoted. -/
theorem formatPeers_eq_quotedAddrList (peers : Table) :
    formatPeers peers = quotedAddrList (finalizedAddrs peers) := by
  unfold formatPeers finalizedAddrs
  cases h : peers.filter (fun p => p.2) with
  | nil => rfl
  | cons p t =>
    rw [List.map_cons, quotedAddrList_eq_tail, List.enum_cons]
    simp only [List.foldl_cons]
    rw [if_neg (by simp)]
    rw [formatPeers_fold_tail t 0]
    simp [String.empty_append]

/-- A rendered peer list is never the empty string when the finalized subset
is non-empty: its first element alone contributes at least a quote pair. -/
theorem quotedAddrList_ne_empty (a : SocketAddr) (t : List SocketAddr) :
    quotedAddrList (a :: t) ≠ "" := by
  rw [quotedAddrList_eq_tail]
  intro h
  have hlen := congrArg String.length h
  rw [String.length_append] at hlen
  have h1 : 1 ≤ (quoteAddr a).length := by
    unfold quoteAddr
    rw [String.length_append, String.length_append]
    have : ("\"" : String).length = 1 := rfl
    omega
  have h0 : ("" : String).length = 0 := rfl
  omega

/-- Appending a record per entry equals the flattened per-entry records. -/
theorem foldl_append_serialize (t : Table) :
    ∀ acc : List Nat,
      t.foldl (fun acc p => acc ++ serializeSocketAddr p.1) acc =
        acc ++ (t.map (fun p => serializeSocketAddr p.1)).flatten := by
  induction t with
  | nil => intro acc; simp
  | cons p rest ih =>
    intro acc
    simp only [List.foldl_cons, List.map_cons, List.flatten_cons, ih,
      List.append_assoc]

/-!
## Claim theorems
-/

/--
C1, amended: the bytes written on the accept path's post-handshake
unidirectional stream before `finish` are exactly the concatenation of the
fixed-width records of ALL entries of the peer table at that moment —
finalized or not, and including the just-inserted entry for the remote
itself — not only of the finalized ones; and the stream is only opened when
the remote was not already finalized.
-/
theorem accept_stream_sends_all_entries (peers : Table)
    (remoteAddr : SocketAddr) :
    (acceptConnection peers remoteAddr).1 =
      if tableGet peers remoteAddr = some true then
        AcceptOutcome.closed 1 "already connected"
      else
        AcceptOutcome.accepted
          (((tableInsert peers remoteAddr true).map
            (fun p => serializeSocketAddr p.1)).flatten) := by
  unfold acceptConnection
  by_cases h : tableGet peers remoteAddr = some true <;>
    simp [h, foldl_append_serialize]

/--
C1, counterexample: with the table holding the non-finalized entry
`(10.0.0.1:8080, false)` and remote 10.0.0.2:8081 accepted, the bytes sent
are not the records of the finalized entries at that moment (which would be
just the remote's own record): the non-finalized entry's record is written
too.
-/
theorem accept_stream_not_only_finalized_counterexample :
    (acceptConnection [(addrA, false)] addrB).1 ≠
      AcceptOutcome.accepted
        ((((tableInsert [(addrA, false)] addrB true).filter
          (fun p => p.2)).map (fun p => serializeSocketAddr p.1)).flatten) := by
  decide

/--
C2, amended: when the receiver loop returns with close reason
`ApplicationClosed` code 1 or `LocallyClosed`, `handle_connection` emits no
log line (in particular no "Closed connection to" line) and launches no
reconnect dial (so no "Failed to connect" line can follow), but it leaves
the peer-table entry for the remote at `finalized = true`: it first inserts
`false` and then, because the reason is benign, inserts `true` again.
-/
theorem benign_close_is_silent_but_repromotes (reason : ConnectionError)
    (remoteAddr : SocketAddr) (peers : Table)
    (h : isAlreadyOpenOrLocallyClosedReason reason = true) :
    (handleConnectionPost reason remoteAddr peers).logs = [] ∧
    (handleConnectionPost reason remoteAddr peers).retries = false ∧
    tableGet (handleConnectionPost reason remoteAddr peers).table remoteAddr =
      some true := by
  cases reason <;>
    simp_all [handleConnectionPost, isAlreadyOpenOrLocallyClosedReason,
      tableGet_insert_self]

/-- Witness for `benign_close_is_silent_but_repromotes` at
`ApplicationClosed` code 1, remote 10.0.0.2:8081, entry previously
finalized. -/
theorem benign_close_is_silent_but_repromotes_witness :
    (handleConnectionPost (ConnectionError.applicationClosed 1 "dup")
      addrB [(addrB, true)]).logs = [] ∧
    (handleConnectionPost (ConnectionError.applicationClosed 1 "dup")
      addrB [(addrB, true)]).retries = false ∧
    tableGet (handleConnectionPost (ConnectionError.applicationClosed 1 "dup")
      addrB [(addrB, true)]).table addrB = some true :=
  benign_close_is_silent_but_repromotes
    (ConnectionError.applicationClosed 1 "dup") addrB [(addrB, true)]
    (by decide)

/--
C2, counterexample: after a close with `ApplicationClosed` code 1 the entry
for the remote is NOT left at `finalized = false` — the handler re-inserts
it with `finalized = true`.
-/
theorem benign_close_not_demoted_counterexample :
    ¬ tableGet (handleConnectionPost
        (ConnectionError.applicationClosed 1 "dup") addrB
        [(addrB, true)]).table addrB = some false := by
  decide

/--
C3, amended: the decoded-peer insertion loop of `outgoing_connect_inner`
never inserts the local address (each decoded peer is checked against
`endpoint.local_addr()` before insertion), so it preserves local-address
absence; but the bootstrap seeding of `initial_connect` inserts the
`--connect` address unconditionally, so when `--connect` equals the node's
own address the local address does become a key of the table (see the
counterexample).
-/
theorem decoded_loop_never_inserts_local (localAddr : SocketAddr)
    (peers : Table) (decoded : List SocketAddr)
    (h : tableGet peers localAddr = none) :
    tableGet (integrateDecoded localAddr peers decoded) localAddr = none := by
  induction decoded generalizing peers with
  | nil => exact h
  | cons p rest ih =>
    simp only [integrateDecoded, List.foldl_cons]
    by_cases hc : p ≠ localAddr ∧ tableContains peers p = false
    · rw [if_pos hc]
      exact ih _ ((tableGet_insert_ne peers false
        (fun e => hc.1 e.symm)).trans h)
    · rw [if_neg hc]
      exact ih _ h

/-- Witness for `decoded_loop_never_inserts_local`: integrating a decoded
list that even contains the local address into an empty table leaves the
local address absent. -/
theorem decoded_loop_never_inserts_local_witness :
    tableGet (integrateDecoded addrA [] [addrA, addrB]) addrA = none :=
  decoded_loop_never_inserts_local addrA [] [addrA, addrB] rfl

/--
C3, counterexample: running with `--connect` equal to the node's own
address 10.0.0.1:8080, the bootstrap seeding
`HashMap::from([(first_peer, false)])` of `initial_connect` makes the local
address a key of the peer table — no code path guards the seed against the
local address.
-/
theorem bootstrap_seeds_local_address_counterexample :
    tableGet (initialConnectSeed addrA) addrA = some false := by
  decide

/--
C4, amended: the promote step of `outgoing_connect` closes the outbound
connection (application code 1, reason "already connected") exactly when
the entry was already `finalized = true` AND the local address sorts
strictly below the remote one in Rust's `SocketAddr` order (every IPv4
before every IPv6; within a family IP octets first, then port); in every
other case — including local greater than remote — the connection is kept
and the entry is (re-)inserted as finalized.  The accept path, however, is
a second code path that closes a freshly established connection (see the
counterexample).
-/
theorem promote_closes_iff_finalized_and_less
    (localAddr remoteAddr : SocketAddr) (peers : Table) :
    ((outgoingConnectPromote localAddr remoteAddr peers).1 =
        some (1, "already connected") ↔
      tableGet peers remoteAddr = some true ∧
        socketAddrLt localAddr remoteAddr = true) ∧
    (outgoingConnectPromote localAddr remoteAddr peers).2 =
      tableInsert peers remoteAddr true := by
  unfold outgoingConnectPromote
  by_cases h : tableGet peers remoteAddr = some true ∧
      socketAddrLt localAddr remoteAddr = true <;>
    simp [h]

/--
C4, counterexample: the tie-break of `outgoing_connect` is not the only
code path that tears down a freshly established connection: when an inbound
connection's remote is already finalized, `accept_connection` closes the
fresh connection with code 1 / "already connected" without comparing
addresses at all (here the remote equals the table entry 10.0.0.2:8081 and
no local-less-than-remote condition is involved).
-/
theorem accept_path_closes_fresh_connection_counterexample :
    (acceptConnection [(addrB, true)] addrB).1 =
      AcceptOutcome.closed 1 "already connected" := by
  decide

/--
C7: a reconnect is launched when and only when the close reason is
`TimedOut`; every other reason leaves the handler without a dial.  Within
the retry loop, an attempt that finds the entry already finalized issues no
dial and returns `Ok(false)`, and an attempt returns `Ok(true)` exactly
when it dialed and the dial succeeded.
-/
theorem reconnect_only_on_timeout (reason : ConnectionError)
    (remoteAddr : SocketAddr) (peers retryPeers : Table)
    (dialOutcome : Except AppError Unit) :
    ((handleConnectionPost reason remoteAddr peers).retries = true ↔
      reason = ConnectionError.timedOut) ∧
    ((retryConnection retryPeers remoteAddr dialOutcome).1 = false ↔
      tableGet retryPeers remoteAddr = some true) ∧
    ((retryConnection retryPeers remoteAddr dialOutcome).2 =
        Except.ok false ↔
      tableGet retryPeers remoteAddr = some true) ∧
    ((retryConnection retryPeers remoteAddr dialOutcome).2 =
        Except.ok true ↔
      ¬ tableGet retryPeers remoteAddr = some true ∧
        dialOutcome = Except.ok ()) := by
  refine ⟨?_, ?_, ?_, ?_⟩
  · cases reason <;>
      simp only [handleConnectionPost, isAlreadyOpenOrLocallyClosedReason] <;>
      (try split) <;> simp
  · by_cases h : tableGet retryPeers remoteAddr = some true <;>
      simp [retryConnection, h]
  · by_cases h : tableGet retryPeers remoteAddr = some true <;>
      cases dialOutcome <;> simp [retryConnection, h, Except.map]
  · by_cases h : tableGet retryPeers remoteAddr = some true <;>
      cases dialOutcome <;> simp [retryConnection, h, Except.map]

/--
C8: a gossip tick with no finalized peer is skipped entirely (no log line,
nothing published); otherwise the message is the Base58 encoding of the 32
random bytes, the peers are formatted as the double-quoted comma-space
separated list of exactly the finalized subset, the single line
`Sending message [msg] to [peers]` is logged, and the message is published
once on the broadcast bus.
-/
theorem gossip_tick_behaviour (peers : Table) (randomBytes : List Nat) :
    producerTick peers randomBytes =
      if finalizedAddrs peers = [] then ([], [])
      else
        (["Sending message [" ++ bs58Encode randomBytes ++ "] to [" ++
            quotedAddrList (finalizedAddrs peers) ++ "]"],
         [bs58Encode randomBytes]) := by
  unfold producerTick
  rw [formatPeers_eq_quotedAddrList]
  cases h : finalizedAddrs peers with
  | nil => simp [quotedAddrList]
  | cons a t =>
    rw [if_neg (quotedAddrList_ne_empty a t), if_neg (by simp)]

/--
C9: the `Connected to the peers at [...]` line logged at the end of
`initial_connect` lists exactly the entries finalized at that moment (an
address that never finalized contributes nothing to the quoted list), and
the returned table is the compaction of the current one: precisely its
finalized entries, so every remaining entry has `finalized = true`.
-/
theorem initial_connect_logs_finalized_and_compacts (peers : Table) :
    (initialConnectFinish peers).1 =
      "Connected to the peers at [" ++
        quotedAddrList (finalizedAddrs peers) ++ "]" ∧
    (initialConnectFinish peers).2 = peers.filter (fun p => p.2) ∧
    (initialConnectFinish peers).2.all (fun p => p.2) = true := by
  refine ⟨?_, rfl, ?_⟩
  · unfold initialConnectFinish
    rw [formatPeers_eq_quotedAddrList]
  · simp only [initialConnectFinish, List.all_eq_true]
    intro p hp
    exact (List.mem_filter.mp hp).2

/--
C10: `initial_connect` never propagates an error: whatever error the dial
to the bootstrap address returns — DNS, connect, or stream failure — the
result is discarded, the `Connected to the peers at [...]` line is logged
with an empty list (nothing finalized), and an empty peer table is
returned, so the node keeps running.
-/
theorem initial_connect_swallows_errors (firstPeer : SocketAddr)
    (e : AppError) :
    initialConnect firstPeer (Except.error e) =
      ("Connected to the peers at []", []) := by
  rfl

end P2PGossip
